import Mathlib

/-!
# Verification of the `jsonref` reference-resolution engine

A shallow embedding of `src/lib.rs` of the `jsonref` crate: the recursive
`deref` tree walk that resolves JSON-Schema `$ref` pointers, the schema
cache, URL joining, JSON-Pointer lookup, and the entry points
(`deref_value`).  External collaborators (the HTTP client and the
filesystem) are modelled as an explicit environment of partial fetch
functions; the `url` crate's parse/join and `serde_json`'s
`Value::pointer` are modelled directly for the hierarchical http/file
URLs the engine handles.
-/

namespace JsonRefSpec

/-- A JSON document tree, mirroring `serde_json::Value`.  Objects are
association lists kept in ascending key order, mirroring the sorted
iteration order of `serde_json`'s default `BTreeMap` object
representation.  Numbers are modelled as integers (the claims under
verification only exercise integral numbers). -/
inductive Json where
  | null : Json
  | bool (b : Bool) : Json
  | num (n : Int) : Json
  | str (s : String) : Json
  | arr (elems : List Json) : Json
  | obj (entries : List (String × Json)) : Json
deriving Repr

/-- `map.get(key)` on a `serde_json` object map: first entry with the key. -/
def lookupKey : List (String × Json) → String → Option Json
  | [], _ => none
  | (k', v) :: rest, k => if k = k' then some v else lookupKey rest k

/-- `map.remove(key)`: returns the removed value (if present) and the
remaining entries, order preserved. -/
def removeKey : List (String × Json) → String → Option Json × List (String × Json)
  | [], _ => (none, [])
  | (k', v) :: rest, k =>
    if k = k' then (some v, rest)
    else
      let r := removeKey rest k
      (r.1, (k', v) :: r.2)

/-- Strict lexicographic order on character lists: the order `BTreeMap`
keys have in Rust (byte-wise UTF-8 order coincides with code-point
order). -/
def charListLt : List Char → List Char → Bool
  | [], [] => false
  | [], _ :: _ => true
  | _ :: _, [] => false
  | c :: cs, d :: ds =>
    if c = d then charListLt cs ds else decide (c < d)

/-- Strict `BTreeMap` key order on strings. -/
def strLt (a b : String) : Bool :=
  charListLt a.data b.data

/-- `BTreeMap::insert`: replace the value at an existing key, otherwise
insert at the sorted position. -/
def mapInsert : List (String × Json) → String → Json → List (String × Json)
  | [], k, v => [(k, v)]
  | (k', v') :: rest, k, v =>
    if k = k' then (k, v) :: rest
    else if strLt k k' then (k, v) :: (k', v') :: rest
    else (k', v') :: mapInsert rest k v

/-- `Value::get(key)`: key lookup on objects, `None` on anything else. -/
def Json.get : Json → String → Option Json
  | Json.obj entries, k => lookupKey entries k
  | _, _ => none

/-- Read a decimal numeral (`str::parse::<usize>` on an all-digit
string), accumulating into `acc`; any non-digit fails. -/
def readDigits : Nat → List Char → Option Nat
  | acc, [] => some acc
  | acc, c :: rest =>
    if c.isDigit then readDigits (acc * 10 + (c.toNat - 48)) rest else none

/-- `parse_index` of `serde_json`'s pointer implementation: a decimal
index with no leading `+` and no superfluous leading zero. -/
def parseIndex : List Char → Option Nat
  | [] => none
  | c :: rest =>
    if c = '+' then none
    else if c = '0' && !rest.isEmpty then none
    else readDigits 0 (c :: rest)

/-- One step of JSON-Pointer navigation (`serde_json`): objects by key,
arrays by `parse_index`, scalars fail. -/
def pointerStep (v : Json) (token : List Char) : Option Json :=
  match v with
  | Json.obj entries => lookupKey entries (String.mk token)
  | Json.arr elems =>
    match parseIndex token with
    | some ix => elems.get? ix
    | none => none
  | _ => none

/-- Replace every occurrence of the two-character pattern `a b` by the
single character `r` (left to right, as `str::replace` does for the
pointer escapes). -/
def replacePair (a b r : Char) : List Char → List Char
  | [] => []
  | [c] => [c]
  | c :: c' :: rest =>
    if c = a && c' = b then r :: replacePair a b r rest
    else c :: replacePair a b r (c' :: rest)

/-- Unescape one JSON-Pointer token: `~1 → /` then `~0 → ~`, in that
order as in `serde_json`. -/
def unescapeToken (tok : List Char) : List Char :=
  replacePair '~' '0' '~' (replacePair '~' '1' '/' tok)

/-- Split a character list at every occurrence of `c` (like
`str::split(c)`, always at least one piece). -/
def splitChar (c : Char) : List Char → List (List Char)
  | [] => [[]]
  | ch :: rest =>
    let r := splitChar c rest
    if ch = c then [] :: r
    else
      match r with
      | [] => [[ch]]
      | h :: t' => (ch :: h) :: t'

/-- Walk the pointer tokens left to right. -/
def pointerWalk : Json → List (List Char) → Option Json
  | cur, [] => some cur
  | cur, tok :: rest =>
    match pointerStep cur (unescapeToken tok) with
    | none => none
    | some nxt => pointerWalk nxt rest

/-- `Value::pointer` (RFC 6901): empty pointer returns the value itself,
otherwise the pointer must start with `/`; the remaining
slash-separated tokens are unescaped and applied in order. -/
def Json.pointer (v : Json) (p : String) : Option Json :=
  match p.data with
  | [] => some v
  | '/' :: rest => pointerWalk v (splitChar '/' rest)
  | _ => none

/-- A parsed hierarchical URL, modelling the `url` crate's `Url` for the
`http(s)`/`file` URLs the engine handles: a scheme, a host (empty for
`file` URLs), an absolute path held as segments, and an optional
fragment (stored without the leading `#`, as `Url::fragment` returns
it). -/
structure Url where
  scheme : String
  host : String
  path : List String
  fragment : Option String
deriving Repr

/-- Split a character list at its first `#` into the pre-fragment part
and the fragment (everything after that `#`, if the `#` is present; a
trailing `#` gives the empty fragment, as `Url::fragment` reports
`Some("")`). -/
def splitHash : List Char → List Char × Option (List Char)
  | [] => ([], none)
  | c :: rest =>
    if c = '#' then ([], some rest)
    else
      let r := splitHash rest
      (c :: r.1, r.2)

/-- Split off a leading `scheme://` prefix: the characters before the
first `:`, which must be immediately followed by `//`. -/
def splitScheme : List Char → Option (List Char × List Char)
  | [] => none
  | c :: rest =>
    if c = ':' then
      match rest with
      | '/' :: '/' :: hostPath => some ([], hostPath)
      | _ => none
    else
      match splitScheme rest with
      | none => none
      | some (sch, hostPath) => some (c :: sch, hostPath)

/-- A plausible URL scheme: nonempty and alphabetic. -/
def schemeOk (s : List Char) : Bool :=
  !s.isEmpty && s.all Char.isAlpha

/-- `Url::parse`: succeeds only on absolute hierarchical URLs
(`scheme://host/path#fragment`); in particular a relative reference such
as `sub.json` or `#/x` fails, as with the `url` crate
(`RelativeUrlWithoutBase`). -/
def Url.parse (s : String) : Option Url :=
  match splitScheme s.data with
  | none => none
  | some (sch, rest) =>
    if schemeOk sch then
      let (hostPath, frag) := splitHash rest
      match splitChar '/' hostPath with
      | [] => none
      | host :: segs =>
        some ⟨String.mk sch, String.mk host, segs.map String.mk, frag.map String.mk⟩
    else none

/-- Resolve `.` and `..` path segments, as RFC 3986 merge does. -/
def normalizeSegs (segs : List String) : List String :=
  segs.foldl
    (fun acc s =>
      if s = "." then acc
      else if s = ".." then acc.dropLast
      else acc ++ [s]) []

/-- `Url::join`: RFC 3986 relative-reference resolution for the cases
the engine exercises — an absolute reference replaces the base; a pure
fragment reference keeps the base location and replaces the fragment
(`join("#")` yields fragment `Some("")`); an absolute path replaces the
base path; a relative path is merged onto the base path minus its last
segment. -/
def Url.join (base : Url) (ref : String) : Option Url :=
  match Url.parse ref with
  | some u => some u
  | none =>
    let ph := splitHash ref.data
    let frag := ph.2.map String.mk
    match ph.1 with
    | [] => some { base with fragment := frag }
    | '/' :: pathRest =>
      some { base with path := normalizeSegs ((splitChar '/' pathRest).map String.mk),
                       fragment := frag }
    | p =>
      some { base with
              path := normalizeSegs (base.path.dropLast ++ (splitChar '/' p).map String.mk),
              fragment := frag }

/-- Join segments with `/` (like `Vec::join("/")`). -/
def joinSlash : List String → String
  | [] => ""
  | [s] => s
  | s :: rest => s ++ "/" ++ joinSlash rest

/-- The URL's path as a string, as `Url::path()` returns it. -/
def Url.pathString (u : Url) : String :=
  "/" ++ joinSlash u.path

/-- `Url::to_string()`: note a present-but-empty fragment still prints a
trailing `#`. -/
def Url.toString (u : Url) : String :=
  u.scheme ++ "://" ++ u.host ++ u.pathString ++
    (match u.fragment with
     | none => ""
     | some f => "#" ++ f)

/-- `str::starts_with`, over the character lists. -/
def strStartsWith (s pre : String) : Bool :=
  pre.data.isPrefixOf s.data

/-- The external collaborators: a blocking HTTP GET returning a parsed
JSON body (`reqwest::blocking::get(url)?.json()?`) and a filesystem
read-and-parse (`fs::File::open` + `serde_json::from_reader`).  `none`
models the collaborator failing (network error, unreadable file,
unparsable body). -/
structure Env where
  http : String → Option Json
  file : String → Option Json

/-- The mutable state of a `JsonRef` instance during resolution: the
`schema_cache : HashMap<String, Value>` (as an association list, looked
up by key), plus an instrumentation log of the document identifiers
actually fetched from the environment, in order — the "fetch-count
probe" used to state the single-fetch-per-identifier invariant. -/
structure DerefState where
  schema_cache : List (String × Json)
  fetchLog : List String
deriving Repr

/-- `HashMap::insert`: replace the value at an existing key, otherwise
append. -/
def cacheInsert : List (String × Json) → String → Json → List (String × Json)
  | [], k, v => [(k, v)]
  | (k', v') :: rest, k, v =>
    if k = k' then (k, v) :: rest else (k', v') :: cacheInsert rest k v

/-- The ways a resolution can stop abnormally.  All constructors except
the last two model `Err` values propagated by `?` out of `deref` (the
crate uses `Box<dyn Error>`; the payloads record the context each
underlying error carries).  `processAbort` models the `panic!` at the
unsupported-scheme branch — an abnormal process termination, not a
returned `Result::Err`.  `outOfFuel` is an artifact of the embedding's
fuel parameter standing in for unbounded recursion. -/
inductive DerefError where
  | invalidBaseUri (base : String) : DerefError
  | invalidReference (base ref : String) : DerefError
  | fetchError (url : String) : DerefError
  | fileError (path : String) : DerefError
  | pointerNotFound (refString fragment : String) : DerefError
  | processAbort (msg : String) : DerefError
  | outOfFuel : DerefError
deriving Repr

/-- Whether the outcome is a typed error value returned to the caller
(`Result::Err`), as opposed to an abnormal termination (`panic!`) or
the embedding's fuel artifact. -/
def DerefError.isTypedError : DerefError → Bool
  | DerefError.processAbort _ => false
  | DerefError.outOfFuel => false
  | _ => true

/-- The Document Cache's get-or-load step, lines 191–208 of `lib.rs`:
serve the identifier (the reference URL with fragment stripped) from the
cache if present; otherwise dispatch on the identifier string — a
`http`-prefixed identifier is fetched over HTTP, a `file`-prefixed one
is read from the filesystem at the URL's path, and anything else hits
the `panic!`.  A successful fetch is inserted into the cache (the code's
insert is guarded by `!contains_key`, which holds here as the lookup
just missed) and recorded in the fetch log. -/
def get_or_load (env : Env) (st : DerefState) (ref_url_no_fragment : Url) :
    Except DerefError (Json × DerefState) :=
  let ref_no_fragment := ref_url_no_fragment.toString
  match lookupKey st.schema_cache ref_no_fragment with
  | some cached_schema => Except.ok (cached_schema, st)
  | none =>
    let fetched : Except DerefError Json :=
      if strStartsWith ref_no_fragment "http" then
        match env.http ref_no_fragment with
        | some j => Except.ok j
        | none => Except.error (DerefError.fetchError ref_no_fragment)
      else if strStartsWith ref_no_fragment "file" then
        match env.file ref_url_no_fragment.pathString with
        | some j => Except.ok j
        | none => Except.error (DerefError.fileError ref_url_no_fragment.pathString)
      else
        Except.error (DerefError.processAbort "need url to be a file or a http based url")
    match fetched with
    | Except.error e => Except.error e
    | Except.ok schema =>
      Except.ok (schema,
        { schema_cache := cacheInsert st.schema_cache ref_no_fragment schema,
          fetchLog := st.fetchLog ++ [ref_no_fragment] })

/-- Lines 174–179: a string-valued `$id` key overrides the inherited
base identifier for the node and its descendants. -/
def effectiveId (value : Json) (id : String) : String :=
  match Json.get value "$id" with
  | some (Json.str s) => s
  | _ => id

/-- The `for obj_value in obj.values_mut()` loop of lines 234–238,
abstracted over the recursive call `d`: deref each entry's value in
order, stopping at (and propagating) the first error, keeping the
partially-processed entries — exactly the in-place mutation plus `?`
semantics of the Rust loop. -/
def derefEntriesAux
    (d : Json → String → List String → DerefState →
      Option DerefError × Json × DerefState) :
    List (String × Json) → String → List String → DerefState →
      Option DerefError × List (String × Json) × DerefState
  | [], _, _, st => (none, [], st)
  | (k, v) :: rest, id, used_refs, st =>
    match d v id used_refs st with
    | (some e, v', st') => (some e, (k, v') :: rest, st')
    | (none, v', st') =>
      let r := derefEntriesAux d rest id used_refs st'
      (r.1, (k, v') :: r.2.1, r.2.2)

/-- Lines 234–238 ("step 3"), abstracted over the recursive call `d`:
if the node (after any substitution) is an object, deref every one of
its values with the effective base identifier and the original trail;
any other node is left as it is. -/
def step3Aux
    (d : Json → String → List String → DerefState →
      Option DerefError × Json × DerefState)
    (new_id : String) (used_refs : List String) (v : Json) (st : DerefState) :
    Option DerefError × Json × DerefState :=
  match v with
  | Json.obj entries =>
    let r := derefEntriesAux d entries new_id used_refs st
    (r.1, Json.obj r.2.1, r.2.2)
  | other => (none, other, st)

/-- Lines 215–238, from the cycle check onward, abstracted over the
recursive call `d`.  `entries₁` is the node's entries with `$ref`
already removed, `schema₁` the loaded (and pointer-navigated) target.
If the full joined reference string `ref_url_string` is already in the
trail, return `Ok` immediately — the node keeps `entries₁` and nothing
else happens (in particular the line-234 loop is *not* reached, as the
Rust code's `return Ok(())` exits `deref` entirely).  Otherwise deref
the fetched subtree with the extended trail and the target identifier
`ref_no_fragment` as base, replace the node with the result, attach the
pre-substitution object under the reference key `rk` when both `rk` is
set and the new node is an object, and finally run the line-234 loop on
the new node. -/
def substituteAux
    (d : Json → String → List String → DerefState →
      Option DerefError × Json × DerefState)
    (rk : Option String) (new_id : String) (used_refs : List String)
    (entries₁ : List (String × Json)) (ref_no_fragment ref_url_string : String)
    (schema₁ : Json) (st₁ : DerefState) :
    Option DerefError × Json × DerefState :=
  if used_refs.contains ref_url_string then
    (none, Json.obj entries₁, st₁)
  else
    let new_used_refs := used_refs ++ [ref_url_string]
    match d schema₁ ref_no_fragment new_used_refs st₁ with
    | (some e, _, st₂) => (some e, Json.obj entries₁, st₂)
    | (none, schema₂, st₂) =>
      let old_value := Json.obj entries₁
      let value₁ :=
        match rk, schema₂ with
        | some reference_key, Json.obj new_entries =>
          Json.obj (mapInsert new_entries reference_key old_value)
        | _, _ => schema₂
      step3Aux d new_id used_refs value₁ st₂

/-- `JsonRef::deref`, lines 168–240, as a state-passing function.  The
triple returned is (outcome, value after the call, state after the
call), mirroring the Rust signature `fn deref(&mut self, value: &mut
Value, id: String, used_refs: &Vec<String>) -> Result<(), _>` where
`value` and `self` keep their mutations even when an `Err` is returned.
`fuel` bounds the recursion depth (the Rust code recurses unboundedly);
every recursive call decrements it.

Walk of the body: compute the effective base from `$id`; if the node is
an object, remove its `$ref` key; when the removed value is a string,
parse the base (failure is the line-184 `?`), join the reference onto
it, load the target document (cache or fetch) under the
fragment-stripped identifier, apply the fragment as a JSON Pointer
(failure is the line-212 descriptive error), then run `substituteAux`
(cycle check, recursive resolution, splice, reference key); a removed
non-string `$ref` is ignored, and in all non-reference and non-error
cases the walk ends with the line-234 loop (`step3Aux`) over the node's
current values. -/
def deref (env : Env) (rk : Option String) :
    Nat → Json → String → List String → DerefState →
      Option DerefError × Json × DerefState
  | 0, value, _, _, st => (some DerefError.outOfFuel, value, st)
  | Nat.succ fuel, value, id, used_refs, st =>
    let d := deref env rk fuel
    let new_id := effectiveId value id
    match value with
    | Json.obj entries =>
      match removeKey entries "$ref" with
      | (some (Json.str ref_string), entries₁) =>
        match Url.parse new_id with
        | none => (some (DerefError.invalidBaseUri new_id), Json.obj entries₁, st)
        | some id_url =>
          match Url.join id_url ref_string with
          | none =>
            (some (DerefError.invalidReference new_id ref_string), Json.obj entries₁, st)
          | some ref_url =>
            let ref_url_no_fragment : Url := { ref_url with fragment := none }
            let ref_no_fragment := ref_url_no_fragment.toString
            match get_or_load env st ref_url_no_fragment with
            | Except.error e => (some e, Json.obj entries₁, st)
            | Except.ok (schema₀, st₁) =>
              match ref_url.fragment with
              | some ref_fragment =>
                match schema₀.pointer ref_fragment with
                | none =>
                  (some (DerefError.pointerNotFound ref_string ref_fragment),
                    Json.obj entries₁, st₁)
                | some sub =>
                  substituteAux d rk new_id used_refs entries₁ ref_no_fragment
                    ref_url.toString sub st₁
              | none =>
                substituteAux d rk new_id used_refs entries₁ ref_no_fragment
                  ref_url.toString schema₀ st₁
      | (some _, entries₁) => step3Aux d new_id used_refs (Json.obj entries₁) st
      | (none, _) => step3Aux d new_id used_refs (Json.obj entries) st
    | other => step3Aux d new_id used_refs other st

/-- The synthetic base identifier `file://<cwd>/anon.json` used by
`deref_value` for in-memory input. -/
def anonUrl (cwd : String) : String :=
  "file://" ++ cwd ++ "/anon.json"

/-- `JsonRef::deref_value`, lines 108–115: seed the cache with the input
document under the synthetic identifier, then run `deref` with an empty
used-references trail. -/
def deref_value (env : Env) (rk : Option String) (cwd : String) (fuel : Nat)
    (value : Json) (st : DerefState) :
    Option DerefError × Json × DerefState :=
  let url := anonUrl cwd
  let st₁ : DerefState :=
    { st with schema_cache := cacheInsert st.schema_cache url value }
  deref env rk fuel value url [] st₁

mutual

/-- Whether a `$ref` key occurs anywhere in the tree (at any object, at
any depth, including inside arrays). -/
def hasRefKey : Json → Bool
  | Json.obj entries => hasRefKeyEntries entries
  | Json.arr elems => hasRefKeyElems elems
  | _ => false

/-- `hasRefKey` over an object's entries. -/
def hasRefKeyEntries : List (String × Json) → Bool
  | [] => false
  | (k, v) :: rest => k = "$ref" || hasRefKey v || hasRefKeyEntries rest

/-- `hasRefKey` over an array's elements. -/
def hasRefKeyElems : List Json → Bool
  | [] => false
  | v :: rest => hasRefKey v || hasRefKeyElems rest

end

mutual

/-- Nesting depth of objects-inside-objects: the number of recursion
levels `deref` descends through a reference-free tree (arrays are leaves
for the walker, which never recurses into them). -/
def depth : Json → Nat
  | Json.obj entries => depthEntries entries + 1
  | _ => 0

/-- Maximum `depth` over an object's entry values. -/
def depthEntries : List (String × Json) → Nat
  | [] => 0
  | (_, v) :: rest => max (depth v) (depthEntries rest)

end

/-- Every binding a cache holds is still held, unchanged, by the second
cache: nothing is ever evicted or overwritten. -/
def cachePreserved (c c' : List (String × Json)) : Prop :=
  ∀ k v, lookupKey c k = some v → lookupKey c' k = some v

/-- The single-fetch invariant on an engine state: no document
identifier was ever fetched twice, and every fetched identifier is held
by the cache (so any later reference to it is a cache hit). -/
def goodState (st : DerefState) : Prop :=
  st.fetchLog.Nodup ∧ ∀ i ∈ st.fetchLog, (lookupKey st.schema_cache i).isSome = true

/-- An environment whose collaborators always fail: used for runs that
must be served entirely from the cache. -/
def envEmpty : Env := ⟨fun _ => none, fun _ => none⟩

/-- The empty engine state: fresh cache, nothing fetched yet. -/
def stEmpty : DerefState := ⟨[], []⟩

/-- State evolution contract of one engine step: the cache is preserved
pointwise (so nothing is evicted or overwritten), and the single-fetch
invariant is maintained. -/
def StOk (st st' : DerefState) : Prop :=
  cachePreserved st.schema_cache st'.schema_cache ∧ (goodState st → goodState st')

theorem StOk.rfl (st : DerefState) : StOk st st :=
  ⟨fun _ _ h => h, id⟩

theorem StOk.trans {s t u : DerefState} (h1 : StOk s t) (h2 : StOk t u) : StOk s u :=
  ⟨fun k v hk => h2.1 k v (h1.1 k v hk), fun g => h2.2 (h1.2 g)⟩

theorem lookupKey_cacheInsert (c : List (String × Json)) (k k' : String) (v : Json) :
    lookupKey (cacheInsert c k v) k' = if k' = k then some v else lookupKey c k' := by
  induction c with
  | nil => simp [cacheInsert, lookupKey]
  | cons p rest ih =>
    obtain ⟨k₀, v₀⟩ := p
    simp only [cacheInsert]
    by_cases h1 : k = k₀
    · subst h1
      by_cases h2 : k' = k <;> simp [lookupKey, h2]
    · simp only [if_neg h1, lookupKey]
      by_cases h2 : k' = k₀
      · subst h2
        have hne : ¬k' = k := fun h => h1 h.symm
        simp [hne]
      · simp [h2, ih]

/-- A successful `get_or_load` either hit the cache (state untouched) or
fetched a previously-unseen identifier, inserted it, and logged the
fetch. -/
theorem get_or_load_cases (env : Env) (st : DerefState) (u : Url) (S : Json)
    (st₁ : DerefState) (h : get_or_load env st u = Except.ok (S, st₁)) :
    (lookupKey st.schema_cache u.toString = some S ∧ st₁ = st) ∨
    (lookupKey st.schema_cache u.toString = none ∧
      st₁ = { schema_cache := cacheInsert st.schema_cache u.toString S,
              fetchLog := st.fetchLog ++ [u.toString] }) := by
  rcases hc : lookupKey st.schema_cache u.toString with _ | S₀ <;>
    simp only [get_or_load, hc] at h
  · right
    refine ⟨rfl, ?_⟩
    split at h
    · exact absurd h (by simp)
    · simp only [Except.ok.injEq, Prod.mk.injEq] at h
      rw [← h.1, ← h.2]
  · simp only [Except.ok.injEq, Prod.mk.injEq] at h
    exact Or.inl ⟨by rw [h.1], h.2.symm⟩

/-- A successful `get_or_load` satisfies the state contract, and the
loaded identifier is in the resulting cache, bound to the returned
tree. -/
theorem get_or_load_StOk (env : Env) (st : DerefState) (u : Url) (S : Json)
    (st₁ : DerefState) (h : get_or_load env st u = Except.ok (S, st₁)) :
    StOk st st₁ ∧ lookupKey st₁.schema_cache u.toString = some S := by
  rcases get_or_load_cases env st u S st₁ h with ⟨hc, rfl⟩ | ⟨hc, rfl⟩
  · exact ⟨StOk.rfl _, hc⟩
  · constructor
    · constructor
      · intro k v hk
        rw [lookupKey_cacheInsert]
        by_cases hk' : k = u.toString
        · subst hk'; rw [hk] at hc; exact absurd hc (by simp)
        · rw [if_neg hk']; exact hk
      · rintro ⟨hnd, hmem⟩
        have hnew : u.toString ∉ st.fetchLog := by
          intro hin
          have := hmem _ hin
          rw [hc] at this
          simp at this
        constructor
        · simp only [List.nodup_append, List.nodup_cons, List.nodup_nil]
          exact ⟨hnd, ⟨by simp, trivial⟩, by
            intro a ha hb
            simp only [List.mem_singleton] at hb
            subst hb
            exact hnew ha⟩
        · intro i hi
          simp only [List.mem_append, List.mem_singleton] at hi
          rcases hi with hi | rfl
          · rw [lookupKey_cacheInsert]
            by_cases hk' : i = u.toString
            · simp [hk']
            · rw [if_neg hk']; exact hmem _ hi
          · simp [lookupKey_cacheInsert]
    · simp [lookupKey_cacheInsert]

theorem derefEntriesAux_StOk
    (d : Json → String → List String → DerefState →
      Option DerefError × Json × DerefState)
    (hd : ∀ v id t st, StOk st (d v id t st).2.2)
    (entries : List (String × Json)) (id : String) (t : List String)
    (st : DerefState) :
    StOk st (derefEntriesAux d entries id t st).2.2 := by
  induction entries generalizing st with
  | nil => exact StOk.rfl st
  | cons p rest ih =>
    obtain ⟨k, v⟩ := p
    simp only [derefEntriesAux]
    rcases hdv : d v id t st with ⟨e, v', st'⟩
    have h1 : StOk st st' := by
      have := hd v id t st
      rw [hdv] at this
      exact this
    cases e
    · exact h1.trans (ih st')
    · exact h1

theorem step3Aux_StOk
    (d : Json → String → List String → DerefState →
      Option DerefError × Json × DerefState)
    (hd : ∀ v id t st, StOk st (d v id t st).2.2)
    (new_id : String) (used_refs : List String) (v : Json) (st : DerefState) :
    StOk st (step3Aux d new_id used_refs v st).2.2 := by
  cases v <;> simp only [step3Aux]
  case obj entries => exact derefEntriesAux_StOk d hd entries new_id used_refs st
  all_goals exact StOk.rfl st

theorem substituteAux_StOk
    (d : Json → String → List String → DerefState →
      Option DerefError × Json × DerefState)
    (hd : ∀ v id t st, StOk st (d v id t st).2.2)
    (rk : Option String) (new_id : String) (used_refs : List String)
    (entries₁ : List (String × Json)) (rnf rus : String) (schema₁ : Json)
    (st₁ : DerefState) :
    StOk st₁ (substituteAux d rk new_id used_refs entries₁ rnf rus schema₁ st₁).2.2 := by
  simp only [substituteAux]
  split
  · exact StOk.rfl st₁
  · rcases hdv : d schema₁ rnf (used_refs ++ [rus]) st₁ with ⟨e, v', st₂⟩
    have h1 : StOk st₁ st₂ := by
      have := hd schema₁ rnf (used_refs ++ [rus]) st₁
      rw [hdv] at this
      exact this
    cases e
    · exact h1.trans (step3Aux_StOk d hd new_id used_refs _ st₂)
    · exact h1

/-- Every `deref` call obeys the state contract: the cache only grows
and each identifier is fetched at most once. -/
theorem deref_StOk (env : Env) (rk : Option String) :
    ∀ (fuel : Nat) (v : Json) (id : String) (t : List String) (st : DerefState),
      StOk st (deref env rk fuel v id t st).2.2 := by
  intro fuel
  induction fuel with
  | zero => intro v id t st; exact StOk.rfl st
  | succ fuel ih =>
    intro v id t st
    cases v with
    | obj entries =>
      simp only [deref]
      rcases hrem : removeKey entries "$ref" with ⟨o, entries₁⟩
      cases o with
      | none => exact step3Aux_StOk _ ih _ _ _ _
      | some val =>
        cases val with
        | str ref_string =>
          dsimp only
          rcases hp : Url.parse (effectiveId (Json.obj entries) id) with _ | id_url
          · exact StOk.rfl st
          · dsimp only
            rcases hj : Url.join id_url ref_string with _ | ref_url
            · exact StOk.rfl st
            · dsimp only
              rcases hg : get_or_load env st { ref_url with fragment := none }
                with e | ⟨schema₀, st₁⟩
              · exact StOk.rfl st
              · dsimp only
                have hok : StOk st st₁ :=
                  (get_or_load_StOk env st _ schema₀ st₁ hg).1
                rcases hfrag : ref_url.fragment with _ | f
                · exact hok.trans (substituteAux_StOk _ ih _ _ _ _ _ _ _ _)
                · dsimp only
                  rcases hpt : schema₀.pointer f with _ | sub
                  · exact hok
                  · exact hok.trans (substituteAux_StOk _ ih _ _ _ _ _ _ _ _)
        | _ => exact step3Aux_StOk _ ih _ _ _ _
    | _ => exact step3Aux_StOk _ ih _ _ _ _

theorem hasRefKeyEntries_eq_false {entries : List (String × Json)}
    (h : hasRefKeyEntries entries = false) :
    ∀ p ∈ entries, p.1 ≠ "$ref" ∧ hasRefKey p.2 = false := by
  induction entries with
  | nil => intro p hp; cases hp
  | cons q rest ih =>
    obtain ⟨k, v⟩ := q
    simp only [hasRefKeyEntries, Bool.or_eq_false_iff, decide_eq_false_iff_not] at h
    intro p hp
    rcases List.mem_cons.mp hp with rfl | hp
    · exact ⟨h.1.1, h.1.2⟩
    · exact ih h.2 p hp

theorem removeKey_not_found {entries : List (String × Json)}
    (h : ∀ p ∈ entries, p.1 ≠ "$ref") :
    removeKey entries "$ref" = (none, entries) := by
  induction entries with
  | nil => rfl
  | cons q rest ih =>
    obtain ⟨k, v⟩ := q
    have hk : ¬("$ref" = k) := fun hh => h (k, v) (by simp) hh.symm
    simp only [removeKey, if_neg hk]
    rw [ih (fun p hp => h p (List.mem_cons_of_mem _ hp))]

theorem depth_le_depthEntries {entries : List (String × Json)} :
    ∀ p ∈ entries, depth p.2 ≤ depthEntries entries := by
  induction entries with
  | nil => intro p hp; cases hp
  | cons q rest ih =>
    obtain ⟨k, v⟩ := q
    intro p hp
    rcases List.mem_cons.mp hp with rfl | hp
    · simp only [depthEntries]
      exact le_max_left _ _
    · exact le_trans (ih p hp) (by simp only [depthEntries]; exact le_max_right _ _)

theorem derefEntriesAux_id
    (d : Json → String → List String → DerefState →
      Option DerefError × Json × DerefState)
    (entries : List (String × Json)) (id : String) (t : List String)
    (st : DerefState)
    (hall : ∀ p ∈ entries, ∀ (id' : String) (t' : List String) (st' : DerefState),
      d p.2 id' t' st' = (none, p.2, st')) :
    derefEntriesAux d entries id t st = (none, entries, st) := by
  induction entries generalizing st with
  | nil => rfl
  | cons p rest ih =>
    obtain ⟨k, v⟩ := p
    simp only [derefEntriesAux]
    rw [hall (k, v) (by simp) id t st]
    dsimp only
    rw [ih st (fun p hp => hall p (List.mem_cons_of_mem _ hp))]

/-- On a tree with no `$ref` anywhere, `deref` is the identity: it
returns `Ok`, leaves the value untouched and the state untouched,
provided the fuel exceeds the tree's object-nesting depth (the Rust
recursion needs no fuel). -/
theorem deref_no_refs (env : Env) (rk : Option String) :
    ∀ (fuel : Nat) (v : Json) (id : String) (t : List String) (st : DerefState),
      hasRefKey v = false → depth v < fuel →
      deref env rk fuel v id t st = (none, v, st) := by
  intro fuel
  induction fuel with
  | zero => intro v id t st _ hd; exact absurd hd (Nat.not_lt_zero _)
  | succ fuel ih =>
    intro v id t st h hd
    cases v with
    | obj entries =>
      have hent : ∀ p ∈ entries, p.1 ≠ "$ref" ∧ hasRefKey p.2 = false :=
        hasRefKeyEntries_eq_false (by simpa [hasRefKey] using h)
      have hde : depthEntries entries < fuel := by
        have : depth (Json.obj entries) = depthEntries entries + 1 := rfl
        omega
      simp only [deref]
      rw [removeKey_not_found (fun p hp => (hent p hp).1)]
      dsimp only
      simp only [step3Aux]
      rw [derefEntriesAux_id (deref env rk fuel) entries _ t st
        (fun p hp id' t' st' =>
          ih p.2 id' t' st' (hent p hp).2
            (lt_of_le_of_lt (depth_le_depthEntries p hp) hde))]
    | null => simp [deref, step3Aux]
    | bool b => simp [deref, step3Aux]
    | num n => simp [deref, step3Aux]
    | str s => simp [deref, step3Aux]
    | arr xs => simp [deref, step3Aux]

/-- Claim C6: for every `$ref` whose fragment is a JSON-Pointer path
that does not exist in the successfully loaded target document, `deref`
stops with the descriptive error carrying the failing reference string
and the pointer — it never substitutes a null and never leaves the node
silently resolved-looking (the node is left with its `$ref` stripped and
no substitution is performed, and the error is returned to the
caller). -/
theorem deref_pointerNotFound
    (env : Env) (rk : Option String) (fuel : Nat)
    (entries entries₁ : List (String × Json)) (id ref_string f : String)
    (t : List String) (st st₁ : DerefState) (id_url ref_url : Url) (S : Json)
    (h1 : removeKey entries "$ref" = (some (Json.str ref_string), entries₁))
    (h2 : Url.parse (effectiveId (Json.obj entries) id) = some id_url)
    (h3 : Url.join id_url ref_string = some ref_url)
    (h4 : get_or_load env st { ref_url with fragment := none } = Except.ok (S, st₁))
    (h5 : ref_url.fragment = some f)
    (h6 : S.pointer f = none) :
    deref env rk (fuel + 1) (Json.obj entries) id t st =
      (some (DerefError.pointerNotFound ref_string f), Json.obj entries₁, st₁) := by
  simp only [deref, h1, h2, h3, h4, h5, h6]

/-- Claim C9 (amended): when the full joined reference string (with
fragment) is already in the used-references trail, `deref` returns `Ok`
at once: the node keeps exactly its remaining entries (with `$ref`
stripped), no substitution happens, and — because the Rust
`return Ok(())` exits the whole call — the walker does *not* recurse
into the node's values in this call, so sibling keys accompanying a
cycle-stopped `$ref` are left untraversed by it (they are only revisited
by an enclosing post-substitution walk, when one exists); only when the
cycle check did not fire does the walker recurse into every value with
the current effective base and the original trail. -/
theorem deref_cycle_stop
    (env : Env) (rk : Option String) (fuel : Nat)
    (entries entries₁ : List (String × Json)) (id ref_string f : String)
    (t : List String) (st st₁ : DerefState) (id_url ref_url : Url) (S S₁ : Json)
    (h1 : removeKey entries "$ref" = (some (Json.str ref_string), entries₁))
    (h2 : Url.parse (effectiveId (Json.obj entries) id) = some id_url)
    (h3 : Url.join id_url ref_string = some ref_url)
    (h4 : get_or_load env st { ref_url with fragment := none } = Except.ok (S, st₁))
    (h5 : ref_url.fragment = some f)
    (h6 : S.pointer f = some S₁)
    (h7 : t.contains ref_url.toString = true) :
    deref env rk (fuel + 1) (Json.obj entries) id t st =
      (none, Json.obj entries₁, st₁) := by
  simp only [deref, h1, h2, h3, h4, h5, h6, substituteAux, h7, if_true]

/-- Claim C3 (amended): the tree walk recurses only into object values
and never into array elements — an array node is returned entirely
unchanged, whatever it contains, so a `$ref` object nested inside an
array survives into the resolved output. -/
theorem deref_arr (env : Env) (rk : Option String) (fuel : Nat) (xs : List Json)
    (id : String) (t : List String) (st : DerefState) :
    deref env rk (fuel + 1) (Json.arr xs) id t st = (none, Json.arr xs, st) :=
  rfl

/-- Claim C8: for every document containing no `$ref` key at any depth,
resolution succeeds and is the identity transform — `deref_value`
returns `Ok`, leaves the document unchanged, and only touches the state
to seed the cache with the document under the synthetic identifier
(fuel above the document's nesting depth stands in for the unbounded
Rust recursion). -/
theorem deref_value_no_refs (env : Env) (rk : Option String) (cwd : String)
    (fuel : Nat) (v : Json) (st : DerefState)
    (h1 : hasRefKey v = false) (h2 : depth v < fuel) :
    deref_value env rk cwd fuel v st =
      (none, v,
        { st with schema_cache := cacheInsert st.schema_cache (anonUrl cwd) v }) := by
  simp only [deref_value]
  rw [deref_no_refs env rk fuel v _ _ _ h1 h2]

/-! ## The claims -/

/-- Claim C1: resolving the self-referential document
`{"properties": {"prop1": {"$ref": "#"}}}` with `deref_value` terminates
and produces `{"properties": {"prop1": {"properties": {"prop1": {}}}}}`
— the first unrolling is present, and at the repeated reference the
node is left with its `$ref` key stripped and no substitution performed
(the state only holds the seeded cache entry; nothing was fetched). -/
theorem selfRef_one_unrolling :
    deref_value envEmpty none "/w" 20
      (Json.obj [("properties", Json.obj [("prop1",
        Json.obj [("$ref", Json.str "#")])])]) stEmpty =
    (none,
      Json.obj [("properties", Json.obj [("prop1",
        Json.obj [("properties", Json.obj [("prop1", Json.obj [])])])])],
      ⟨[("file:///w/anon.json",
          Json.obj [("properties", Json.obj [("prop1",
            Json.obj [("$ref", Json.str "#")])])])], []⟩) :=
  rfl

/-- Claim C2: for every engine run and every document identifier, at
most one fetch is performed for that identifier — starting from a state
satisfying the single-fetch invariant (no identifier fetched twice,
every fetched identifier cached), any `deref` call preserves it, and
every cache binding present beforehand is still present, unchanged,
afterwards (so later references to a cached identifier are served from
the cache and entries are never removed). -/
theorem fetch_at_most_once (env : Env) (rk : Option String) (fuel : Nat)
    (v : Json) (id : String) (t : List String) (st : DerefState)
    (h : goodState st) :
    goodState (deref env rk fuel v id t st).2.2 ∧
    cachePreserved st.schema_cache (deref env rk fuel v id t st).2.2.schema_cache :=
  ⟨(deref_StOk env rk fuel v id t st).2 h, (deref_StOk env rk fuel v id t st).1⟩

/-- Witness for C2: a document referencing `http://h/s.json` from two
different locations, resolved from the empty state. -/
theorem fetch_at_most_once_witness :
    goodState stEmpty ∧
    (goodState (deref
        ⟨fun u => if u = "http://h/s.json" then some (Json.num 7) else none,
          fun _ => none⟩ none 5
        (Json.obj [("a", Json.obj [("$ref", Json.str "http://h/s.json")]),
                   ("b", Json.obj [("$ref", Json.str "http://h/s.json")])])
        "file:///w/anon.json" [] stEmpty).2.2 ∧
     cachePreserved stEmpty.schema_cache (deref
        ⟨fun u => if u = "http://h/s.json" then some (Json.num 7) else none,
          fun _ => none⟩ none 5
        (Json.obj [("a", Json.obj [("$ref", Json.str "http://h/s.json")]),
                   ("b", Json.obj [("$ref", Json.str "http://h/s.json")])])
        "file:///w/anon.json" [] stEmpty).2.2.schema_cache) :=
  ⟨⟨List.nodup_nil, by intro i hi; cases hi⟩,
    fetch_at_most_once
      ⟨fun u => if u = "http://h/s.json" then some (Json.num 7) else none,
        fun _ => none⟩ none 5
      (Json.obj [("a", Json.obj [("$ref", Json.str "http://h/s.json")]),
                 ("b", Json.obj [("$ref", Json.str "http://h/s.json")])])
      "file:///w/anon.json" [] stEmpty
      ⟨List.nodup_nil, by intro i hi; cases hi⟩⟩

/-- Counterexample to claim C3 as stated: the document
`{"a": [{"$ref": "#/b"}], "b": 1}` has its only `$ref` resolvable
(`#/b` points at `1`), resolution succeeds, yet the output still
contains a `$ref` key — the walker never descended into the array. -/
theorem refInArray_left_unresolved :
    (deref_value envEmpty none "/w" 20
      (Json.obj [("a", Json.arr [Json.obj [("$ref", Json.str "#/b")]]),
                 ("b", Json.num 1)]) stEmpty).1 = none ∧
    hasRefKey (deref_value envEmpty none "/w" 20
      (Json.obj [("a", Json.arr [Json.obj [("$ref", Json.str "#/b")]]),
                 ("b", Json.num 1)]) stEmpty).2.1 = true :=
  ⟨rfl, rfl⟩

/-- Counterexample to claim C4 as stated: with a literal relative
`$id: "sub.json"`, a `$ref` inside that object makes resolution fail
with an invalid-base-URI error (the Rust `Url::parse(&new_id)?` at line
184 cannot parse a relative identifier), rather than succeed. -/
theorem relative_id_fails :
    (deref_value envEmpty none "/w" 20
      (Json.obj [("sub", Json.obj [("$id", Json.str "sub.json"),
                    ("x", Json.obj [("$ref", Json.str "#/t")])]),
                 ("t", Json.num 1)]) stEmpty).1 =
      some (DerefError.invalidBaseUri "sub.json") :=
  rfl

/-- Claim C4 (amended): a nested object carrying an *absolute* `$id`
(here `file:///w/sub/sub.json`) rebases relative `$ref`s inside it: the
reference `other.json#/t` is fetched from `/w/sub/other.json` — the
identifier obtained by joining against the `$id`, not against the
document root's base `file:///w/anon.json` — and resolution succeeds;
a bare relative `$id` such as `"sub.json"` instead makes resolution
fail when a `$ref` inside it is resolved. -/
theorem absolute_id_rebases :
    deref_value
      ⟨fun _ => none,
        fun p => if p = "/w/sub/other.json"
          then some (Json.obj [("t", Json.num 42)]) else none⟩
      none "/w" 20
      (Json.obj [("sub", Json.obj [("$id", Json.str "file:///w/sub/sub.json"),
        ("inner", Json.obj [("$ref", Json.str "other.json#/t")])])])
      stEmpty =
    (none,
      Json.obj [("sub", Json.obj [("$id", Json.str "file:///w/sub/sub.json"),
        ("inner", Json.num 42)])],
      ⟨[("file:///w/anon.json",
          Json.obj [("sub", Json.obj [("$id", Json.str "file:///w/sub/sub.json"),
            ("inner", Json.obj [("$ref", Json.str "other.json#/t")])])]),
        ("file:///w/sub/other.json", Json.obj [("t", Json.num 42)])],
       ["file:///w/sub/other.json"]⟩) :=
  rfl

/-- Counterexample to claim C5 as stated: resolving
`{"$ref": "ftp://h/x.json"}` does not return a typed error value — the
outcome is the modelled `panic!` (an abnormal process termination in
the Rust code), which is not a typed error. -/
theorem unsupported_scheme_not_typed_error :
    (deref_value envEmpty none "/w" 20
      (Json.obj [("$ref", Json.str "ftp://h/x.json")]) stEmpty).1 =
      some (DerefError.processAbort "need url to be a file or a http based url") ∧
    DerefError.isTypedError
      (DerefError.processAbort "need url to be a file or a http based url") = false :=
  ⟨rfl, rfl⟩

/-- Claim C5 (amended): when a reference resolves to a target identifier
that is not already cached and whose serialized form starts with neither
`"http"` nor `"file"` — the line-194/196 dispatch tests string prefixes,
not parsed schemes — the resolution terminates abnormally: the code hits
`panic!("need url to be a file or a http based url")` instead of
returning a typed error value; the node is left with its `$ref` stripped
and the state untouched.  (An uncached identifier that merely starts
with one of the prefixes, such as `httpx://…`, instead takes that fetch
branch and surfaces the branch's typed error.) -/
theorem deref_unsupported_scheme
    (env : Env) (rk : Option String) (fuel : Nat)
    (entries entries₁ : List (String × Json)) (id ref_string : String)
    (t : List String) (st : DerefState) (id_url ref_url : Url)
    (h1 : removeKey entries "$ref" = (some (Json.str ref_string), entries₁))
    (h2 : Url.parse (effectiveId (Json.obj entries) id) = some id_url)
    (h3 : Url.join id_url ref_string = some ref_url)
    (h4 : lookupKey st.schema_cache
      ({ ref_url with fragment := none } : Url).toString = none)
    (h5 : strStartsWith ({ ref_url with fragment := none } : Url).toString
      "http" = false)
    (h6 : strStartsWith ({ ref_url with fragment := none } : Url).toString
      "file" = false) :
    deref env rk (fuel + 1) (Json.obj entries) id t st =
      (some (DerefError.processAbort "need url to be a file or a http based url"),
        Json.obj entries₁, st) := by
  have hload : get_or_load env st { ref_url with fragment := none } =
      Except.error
        (DerefError.processAbort "need url to be a file or a http based url") := by
    simp [get_or_load, h4, h5, h6]
  simp only [deref, h1, h2, h3, hload]

/-- Witness for C5 (amended): the canonical `ftp://` reference resolved
from an empty (uncached) state. -/
theorem unsupported_scheme_witness :
    deref envEmpty none 1 (Json.obj [("$ref", Json.str "ftp://h/x.json")])
      "file:///w/anon.json" [] stEmpty =
    (some (DerefError.processAbort "need url to be a file or a http based url"),
      Json.obj [], stEmpty) :=
  deref_unsupported_scheme envEmpty none 0
    [("$ref", Json.str "ftp://h/x.json")] []
    "file:///w/anon.json" "ftp://h/x.json" [] stEmpty
    ⟨"file", "", ["w", "anon.json"], none⟩
    ⟨"ftp", "h", ["x.json"], none⟩
    rfl rfl rfl rfl rfl rfl

/-- The scheme dispatch really is by string prefix, not by parsed
scheme: an uncached `httpx://…` identifier (a scheme that is neither
http(s) nor file) takes the HTTP branch and surfaces its typed fetch
error, and `filex://…` takes the file branch with its typed file error
— only identifiers starting with neither prefix reach the panic. -/
theorem prefix_dispatch_typed_errors :
    (deref_value envEmpty none "/w" 20
      (Json.obj [("$ref", Json.str "httpx://h/x.json")]) stEmpty).1 =
      some (DerefError.fetchError "httpx://h/x.json") ∧
    DerefError.isTypedError (DerefError.fetchError "httpx://h/x.json") = true ∧
    (deref_value envEmpty none "/w" 20
      (Json.obj [("$ref", Json.str "filex://h/x.json")]) stEmpty).1 =
      some (DerefError.fileError "/x.json") ∧
    DerefError.isTypedError (DerefError.fileError "/x.json") = true :=
  ⟨rfl, rfl, rfl, rfl⟩

/-- Witness for C6: `{"$ref": "#/missing"}` against a cached document
`{"t": 1}` that has no `/missing` member. -/
theorem pointer_not_found_witness :
    deref envEmpty none 1 (Json.obj [("$ref", Json.str "#/missing")])
      "file:///w/anon.json" []
      ⟨[("file:///w/anon.json", Json.obj [("t", Json.num 1)])], []⟩ =
    (some (DerefError.pointerNotFound "#/missing" "/missing"), Json.obj [],
      ⟨[("file:///w/anon.json", Json.obj [("t", Json.num 1)])], []⟩) :=
  deref_pointerNotFound envEmpty none 0
    [("$ref", Json.str "#/missing")] [] "file:///w/anon.json" "#/missing" "/missing"
    [] ⟨[("file:///w/anon.json", Json.obj [("t", Json.num 1)])], []⟩
    ⟨[("file:///w/anon.json", Json.obj [("t", Json.num 1)])], []⟩
    ⟨"file", "", ["w", "anon.json"], none⟩
    ⟨"file", "", ["w", "anon.json"], some "/missing"⟩
    (Json.obj [("t", Json.num 1)])
    rfl rfl rfl rfl rfl rfl

/-- Counterexample to claim C7 as stated: with the reference key
`__reference__` configured, the reference node
`{"$ref": "#/t", "title": "old"}` resolves to the scalar `5`; the
substituted node gains no `__reference__` field (a scalar cannot carry
one) and the sibling `title` is simply dropped. -/
theorem scalar_target_no_reference_key :
    deref_value envEmpty (some "__reference__") "/w" 20
      (Json.obj [("a", Json.obj [("$ref", Json.str "#/t"),
                    ("title", Json.str "old")]),
                 ("t", Json.num 5)]) stEmpty =
    (none, Json.obj [("a", Json.num 5), ("t", Json.num 5)],
      ⟨[("file:///w/anon.json",
          Json.obj [("a", Json.obj [("$ref", Json.str "#/t"),
                      ("title", Json.str "old")]),
                    ("t", Json.num 5)])], []⟩) :=
  rfl

/-- Claim C7 (amended): if a reference key `K` is configured, every
reference node whose substituted content is an *object* gains a field
`K` holding its original sibling data minus `$ref` (first conjunct: the
spec's scenario 2); when the substituted content is not an object no
such field is added and the sibling data is still dropped (third
conjunct); and when no key is configured no such field is added and the
sibling data is discarded rather than merged (second conjunct). -/
theorem reference_key_behaviour :
    (deref_value envEmpty (some "__reference__") "/w" 20
      (Json.obj [("properties", Json.obj [
        ("prop1", Json.obj [("title", Json.str "name")]),
        ("prop2", Json.obj [("$ref", Json.str "#/properties/prop1"),
          ("title", Json.str "old_title")])])]) stEmpty).2.1 =
      Json.obj [("properties", Json.obj [
        ("prop1", Json.obj [("title", Json.str "name")]),
        ("prop2", Json.obj [
          ("__reference__", Json.obj [("title", Json.str "old_title")]),
          ("title", Json.str "name")])])] ∧
    (deref_value envEmpty none "/w" 20
      (Json.obj [("properties", Json.obj [
        ("prop1", Json.obj [("title", Json.str "name")]),
        ("prop2", Json.obj [("$ref", Json.str "#/properties/prop1"),
          ("title", Json.str "old_title")])])]) stEmpty).2.1 =
      Json.obj [("properties", Json.obj [
        ("prop1", Json.obj [("title", Json.str "name")]),
        ("prop2", Json.obj [("title", Json.str "name")])])] ∧
    (deref_value envEmpty (some "__reference__") "/w" 20
      (Json.obj [("a", Json.obj [("$ref", Json.str "#/t"),
                    ("title", Json.str "old")]),
                 ("t", Json.num 5)]) stEmpty).2.1 =
      Json.obj [("a", Json.num 5), ("t", Json.num 5)] :=
  ⟨rfl, rfl, rfl⟩

/-- Witness for C8: the reference-free document
`{"properties": {"prop1": {"title": "proptitle"}}}` is returned
untouched. -/
theorem no_refs_identity_witness :
    deref_value envEmpty none "/w" 5
      (Json.obj [("properties", Json.obj [("prop1",
        Json.obj [("title", Json.str "proptitle")])])]) stEmpty =
    (none,
      Json.obj [("properties", Json.obj [("prop1",
        Json.obj [("title", Json.str "proptitle")])])],
      ⟨[("file:///w/anon.json",
          Json.obj [("properties", Json.obj [("prop1",
            Json.obj [("title", Json.str "proptitle")])])])], []⟩) :=
  deref_value_no_refs envEmpty none "/w" 5
    (Json.obj [("properties", Json.obj [("prop1",
      Json.obj [("title", Json.str "proptitle")])])]) stEmpty
    rfl (by decide)

/-- Counterexample to claim C9 as stated: calling the walker on
`{"$ref": "#", "s": {"$ref": "#/b"}}` with the joined reference already
in the trail returns `Ok` with the sibling `s` untouched — its own
(resolvable) `$ref` is still present in the result, so the walker did
not recurse into the node's values after the cycle check fired. -/
theorem cycle_stop_skips_siblings :
    deref envEmpty none 20
      (Json.obj [("$ref", Json.str "#"),
                 ("s", Json.obj [("$ref", Json.str "#/b")])])
      "file:///w/anon.json" ["file:///w/anon.json#"]
      ⟨[("file:///w/anon.json", Json.obj [("b", Json.num 1)])], []⟩ =
    (none, Json.obj [("s", Json.obj [("$ref", Json.str "#/b")])],
      ⟨[("file:///w/anon.json", Json.obj [("b", Json.num 1)])], []⟩) :=
  rfl

/-- Witness for C9 (amended): a cycle-stopped node keeps its sibling
untouched and the call returns `Ok` immediately. -/
theorem cycle_stop_witness :
    deref envEmpty none 1
      (Json.obj [("$ref", Json.str "#"), ("s", Json.num 3)])
      "file:///w/anon.json" ["file:///w/anon.json#"]
      ⟨[("file:///w/anon.json", Json.obj [("b", Json.num 1)])], []⟩ =
    (none, Json.obj [("s", Json.num 3)],
      ⟨[("file:///w/anon.json", Json.obj [("b", Json.num 1)])], []⟩) :=
  deref_cycle_stop envEmpty none 0
    [("$ref", Json.str "#"), ("s", Json.num 3)] [("s", Json.num 3)]
    "file:///w/anon.json" "#" ""
    ["file:///w/anon.json#"]
    ⟨[("file:///w/anon.json", Json.obj [("b", Json.num 1)])], []⟩
    ⟨[("file:///w/anon.json", Json.obj [("b", Json.num 1)])], []⟩
    ⟨"file", "", ["w", "anon.json"], none⟩
    ⟨"file", "", ["w", "anon.json"], some ""⟩
    (Json.obj [("b", Json.num 1)]) (Json.obj [("b", Json.num 1)])
    rfl rfl rfl rfl rfl rfl rfl

/-- Claim C10: `deref_value` is not atomic on failure — on the document
`{"a": {"$ref": "#/t"}, "b": {"$ref": "#/missing"}, "t": 1}` the call
returns the pointer-not-found error for the second reference, and the
returned document shows the mutations already performed: the first
reference was substituted (`a` is `1`) and the failing node's `$ref`
key was removed (`b` is `{}`); no rollback happened. -/
theorem error_leaves_partial_mutation :
    deref_value envEmpty none "/w" 20
      (Json.obj [("a", Json.obj [("$ref", Json.str "#/t")]),
                 ("b", Json.obj [("$ref", Json.str "#/missing")]),
                 ("t", Json.num 1)]) stEmpty =
    (some (DerefError.pointerNotFound "#/missing" "/missing"),
      Json.obj [("a", Json.num 1), ("b", Json.obj []), ("t", Json.num 1)],
      ⟨[("file:///w/anon.json",
          Json.obj [("a", Json.obj [("$ref", Json.str "#/t")]),
                    ("b", Json.obj [("$ref", Json.str "#/missing")]),
                    ("t", Json.num 1)])], []⟩) :=
  rfl

end JsonRefSpec
